import Mathlib

/-!
Shallow embedding of the API gateway's routing and rate-limiting core
(`api-gateway/app/utils/rate_limiting.py`, `api-gateway/app/api/router.py`,
`api-gateway/app/core/config.py`, `api-gateway/app/core/middleware.py`).

Timestamps (Python floats produced by `time.time()`) are modelled as
rationals; Python `int` values as `Int`.  Conversions `int(x)` on a float
truncate toward zero, and `x % m` on floats follows the sign of the
divisor; both are modelled explicitly below.  Each call to an operation is
modelled atomically: the one or two `time.time()` reads inside a single
call are taken at the same instant `now`.
-/

namespace Gateway

/-- Python `int(x)` on a float: truncation toward zero. -/
def pyInt (q : ℚ) : ℤ := if 0 ≤ q then ⌊q⌋ else ⌈q⌉

/-- Python `x % m` on floats (result has the sign of `m`): `x - m * floor (x / m)`. -/
def pyMod (q m : ℚ) : ℚ := q - m * ⌊q / m⌋

/-- The triple returned by `RateLimiter.check` and its backends:
`(allowed, remaining, reset_time)`. -/
structure CheckResult where
  allowed : Bool
  remaining : ℤ
  resetTime : ℤ
deriving DecidableEq

/-- The in-memory store for one `f"{client_id}:{period}"` key of
`RateLimiter.memory_store`: the list of recorded request timestamps, in
insertion order. -/
abbrev MemStore := List ℚ

/-- `RateLimiter._check_memory` (rate_limiting.py lines 119-164), viewed at
the single key belonging to the given client and period.  Returns the
result triple and the store contents for that key after the call.  The
final `_clean_memory_store` sweep (entered when `now % 60 < 1`) re-filters
the key by the same cutoff and drops the key when empty; an absent key and
an empty list are the same state here. -/
def check_memory (store : MemStore) (now : ℚ) (limit period : ℤ) :
    CheckResult × MemStore :=
  let cutoff : ℚ := now - (period : ℚ)
  let pruned := store.filter (fun ts => decide (cutoff < ts))
  let requestCount : ℤ := pruned.length
  let allowed : Bool := decide (requestCount < limit)
  let store1 := if allowed then pruned ++ [now] else pruned
  let remaining : ℤ := max 0 (limit - (store1.length : ℤ))
  let resetTime : ℤ :=
    if 0 < remaining then pyInt now + period
    else pyInt ((store1.min?.getD now) + (period : ℚ))
  let store2 :=
    if pyMod now 60 < 1 then store1.filter (fun ts => decide (cutoff < ts))
    else store1
  (⟨allowed, remaining, resetTime⟩, store2)

/-- `RateLimiter._check_redis` (rate_limiting.py lines 66-117), viewed at
the single sorted-set key belonging to the given client and period; the
sorted set maps `str(ts)` to score `ts`, so it is a set of timestamps.
`redisOk = false` models any exception raised by the Redis operations
(the `except` branch at lines 114-117).  The pipeline runs
`zremrangebyscore key 0 cutoff` (drops scores in `[0, cutoff]`),
`zadd key {str(now): now}` (unconditionally), `zcard key`, `expire`. -/
def check_redis (store : List ℚ) (now : ℚ) (limit period : ℤ)
    (redisOk : Bool) : CheckResult × List ℚ :=
  if redisOk then
    let cutoff : ℚ := now - (period : ℚ)
    let store1 := store.filter (fun ts => !(decide (0 ≤ ts) && decide (ts ≤ cutoff)))
    let store2 := if now ∈ store1 then store1 else store1 ++ [now]
    let requestCount : ℤ := store2.length
    let allowed : Bool := decide (requestCount ≤ limit)
    let remaining : ℤ := max 0 (limit - requestCount)
    let resetTime : ℤ :=
      if 0 < remaining then pyInt now + period
      else
        match store2.min? with
        | some oldest => pyInt oldest + period
        | none => pyInt now + period
    (⟨allowed, remaining, resetTime⟩, store2)
  else
    (⟨true, limit, pyInt now + period⟩, store)

/-- Python `limit or self.default_limit` in `RateLimiter.check` (lines
56-57): `None` and `0` are falsy, so both select the default. -/
def effectiveParam (arg : Option ℤ) (dflt : ℤ) : ℤ :=
  match arg with
  | none => dflt
  | some v => if v = 0 then dflt else v

/-- `RateLimiter.check` (rate_limiting.py lines 38-63) on the in-memory
backend (`redis_client is None`): substitute defaults for omitted or falsy
arguments, then dispatch to `_check_memory`. -/
def check (store : MemStore) (now : ℚ) (defaultLimit defaultPeriod : ℤ)
    (limit period : Option ℤ) : CheckResult × MemStore :=
  check_memory store now (effectiveParam limit defaultLimit)
    (effectiveParam period defaultPeriod)

/-- Iterate `_check_memory` over a sequence of call times against the same
key, starting from `store`; returns the per-call `allowed` flags. -/
def allowedFlags (limit period : ℤ) (store : MemStore) : List ℚ → List Bool
  | [] => []
  | t :: ts =>
    let r := check_memory store t limit period
    r.1.allowed :: allowedFlags limit period r.2 ts

/-- The store for the key after iterating `_check_memory` over the call
times. -/
def runStore (limit period : ℤ) (store : MemStore) : List ℚ → MemStore
  | [] => store
  | t :: ts => runStore limit period (check_memory store t limit period).2 ts

/-- The call times the limiter admitted (`allowed = true`), in order, when
iterating `_check_memory` over the call times starting from `store`. -/
def admittedTimes (limit period : ℤ) (store : MemStore) : List ℚ → List ℚ
  | [] => []
  | t :: ts =>
    let r := check_memory store t limit period
    if r.1.allowed then t :: admittedTimes limit period r.2 ts
    else admittedTimes limit period r.2 ts

/-- The response of `RateLimitingMiddleware.dispatch` as far as the
rate-limiting layer shapes it: the status code and the two rate-limit
headers (absent when the middleware is bypassed). -/
structure MwResponse where
  status : ℕ
  rateLimitRemaining : Option String
  rateLimitReset : Option String
deriving DecidableEq

/-- `RateLimitingMiddleware.dispatch` (middleware.py lines 66-92) over the
in-memory backend, at the calling client's key: consult
`limiter.check(client_id)` (no explicit limit or period, so the configured
defaults apply); on rejection answer `429` with the two headers, otherwise
relay the downstream response (`downstream` is its status) with the two
headers attached. -/
def dispatch (enabled : Bool) (store : MemStore) (now : ℚ)
    (defaultLimit defaultPeriod : ℤ) (downstream : ℕ) :
    MwResponse × MemStore :=
  if !enabled then (⟨downstream, none, none⟩, store)
  else
    let r := check store now defaultLimit defaultPeriod none none
    if !r.1.allowed then
      (⟨429, some (toString r.1.remaining), some (toString r.1.resetTime)⟩, r.2)
    else
      (⟨downstream, some (toString r.1.remaining), some (toString r.1.resetTime)⟩, r.2)

/-- One value of `settings.SERVICE_ROUTES`: the target `"url"` (possibly
absent) and the `"health"` endpoint path. -/
structure ServiceInfo where
  url : Option String
  health : String
deriving DecidableEq

/-- `settings.SERVICE_ROUTES`: a Python dict from route path to
service info; insertion (configuration) order is iteration order, so it is
modelled as an ordered association list. -/
abbrev Routes := List (String × ServiceInfo)

/-- `dict.get(key)`: first binding for the key, if any. -/
def lookupRoute (routes : Routes) (k : String) : Option ServiceInfo :=
  (routes.find? (fun kv => kv.1 == k)).map (·.2)

/-- Python `str.startswith`: the second string is a character prefix of
the first. -/
def startswith (s p : String) : Bool := p.data.isPrefixOf s.data

/-- Python truthiness of an optional string: `None` and `""` are falsy. -/
def truthy : Option String → Bool
  | none => false
  | some s => s != ""

/-- The cached entry of the `service_health` dict for one route:
`is_healthy`, `last_checked`, and the `"error"` key (present only when the
probe raised). -/
structure HealthStatus where
  is_healthy : Bool
  last_checked : ℚ
  error : Option String
deriving DecidableEq

/-- The module-level `service_health` dict of router.py, keyed by route
path. -/
abbrev HealthMap := List (String × HealthStatus)

/-- `service_health.get(path)`. -/
def lookupHealth (m : HealthMap) (k : String) : Option HealthStatus :=
  (m.find? (fun kv => kv.1 == k)).map (·.2)

/-- `service_health[path] = status`: whole-entry replacement (update in
place when the key exists, else append). -/
def setHealth (m : HealthMap) (k : String) (st : HealthStatus) : HealthMap :=
  if (m.find? (fun kv => kv.1 == k)).isSome then
    m.map (fun kv => if kv.1 == k then (k, st) else kv)
  else m ++ [(k, st)]

/-- Outcome of the outbound health probe
(`httpx.AsyncClient(timeout=5.0).get(url)`): either a completed response
with its status code, or any raised exception (timeout, connection error,
...) carrying its text. -/
inductive ProbeOutcome where
  | response (statusCode : ℕ)
  | failure (errText : String)
deriving DecidableEq

/-- `check_service_health` (router.py lines 33-71): look up the route; if
it or its URL is falsy, return `False` without touching the map.
Otherwise, on a completed probe store `{is_healthy: status == 200,
last_checked: now}` (no `error` key) and return that flag; on a raised
exception store `{is_healthy: False, last_checked: now, error: str(e)}`
and return `False`.  The function returns a `Bool` in every case: no
exception escapes it. -/
def check_service_health (routes : Routes) (health : HealthMap)
    (servicePath : String) (outcome : ProbeOutcome) (now : ℚ) :
    Bool × HealthMap :=
  match lookupRoute routes servicePath with
  | none => (false, health)
  | some info =>
    if !truthy info.url then (false, health)
    else
      match outcome with
      | .response code =>
        let isHealthy : Bool := code == 200
        (isHealthy, setHealth health servicePath ⟨isHealthy, now, none⟩)
      | .failure e =>
        (false, setHealth health servicePath ⟨false, now, some e⟩)

/-- The errors `get_service_url` can raise: `ServiceUnavailableError`
(handled by the dispatcher as 503) or `HTTPException(status_code, detail)`. -/
inductive GatewayError where
  | serviceUnavailable (detail : String)
  | httpError (status : ℕ) (detail : String)
deriving DecidableEq

/-- The successful result of `get_service_url`: the backend URL, plus
whether a detached background health refresh was spawned for the matched
route (`asyncio.create_task(check_service_health(...))`). -/
structure ResolvedRoute where
  url : String
  refreshTriggered : Bool
deriving DecidableEq

/-- The route-scanning loop of `get_service_url`: first configured route
whose path is a string-prefix of the normalized path wins. -/
def findRoute (routes : Routes) (normalizedPath : String)
    (health : HealthMap) (now : ℚ) (originalPath : String) :
    Except GatewayError ResolvedRoute :=
  match routes with
  | [] =>
    .error (.httpError 404 ("No service configured for path: " ++ originalPath))
  | (routePath, info) :: rest =>
    if startswith normalizedPath routePath then
      match info.url with
      | some u =>
        if u == "" then
          .error (.serviceUnavailable
            ("Service configuration for " ++ routePath ++ " is missing"))
        else
          let status := lookupHealth health routePath
          let lastChecked := (status.map (·.last_checked)).getD 0
          let isHealthy := (status.map (·.is_healthy)).getD true
          .ok ⟨u, decide (60 < now - lastChecked) || !isHealthy⟩
      | none =>
        .error (.serviceUnavailable
          ("Service configuration for " ++ routePath ++ " is missing"))
    else findRoute rest normalizedPath health now originalPath

/-- `get_service_url` (router.py lines 74-104): normalize the path to a
leading slash, scan the configured routes in order, and return the first
matching route's URL (falsy URL raises `ServiceUnavailableError`); when no
route matches, raise `HTTPException(404)` naming the attempted (original)
path.  The health map and clock only decide whether a fire-and-forget
refresh task is spawned. -/
def get_service_url (routes : Routes) (health : HealthMap) (now : ℚ)
    (path : String) : Except GatewayError ResolvedRoute :=
  let normalizedPath := if startswith path "/" then path else "/" ++ path
  findRoute routes normalizedPath health now path

/-- `dict(request.headers)`: Starlette lowercases header names, so the
inbound mapping is an ordered association list with lowercase keys. -/
abbrev Headers := List (String × String)

/-- `headers.pop(k, None)`: remove the binding for `k`. -/
def hdrPop (h : Headers) (k : String) : Headers :=
  h.filter (fun kv => kv.1 != k)

/-- `headers[k]` / `k in headers`: first binding for `k`, if any. -/
def hdrGet (h : Headers) (k : String) : Option String :=
  (h.find? (fun kv => kv.1 == k)).map (·.2)

/-- `headers[k] = v`: update in place when the key exists, else append. -/
def hdrSet (h : Headers) (k v : String) : Headers :=
  if (h.find? (fun kv => kv.1 == k)).isSome then
    h.map (fun kv => if kv.1 == k then (k, v) else kv)
  else h ++ [(k, v)]

/-- `preserve_headers` (router.py lines 107-129): copy the inbound
headers; pop `host`, `connection`, `content-length`; append the client IP
(`request.client.host`, or `"unknown"` when `request.client` is `None`) to
`x-forwarded-for` when present, else set it to the client IP; finally set
`x-gateway-secret` to `settings.PROXY_SECRET_KEY`. -/
def preserve_headers (h : Headers) (clientHost : Option String)
    (proxySecretKey : String) : Headers :=
  let h1 := hdrPop (hdrPop (hdrPop h "host") "connection") "content-length"
  let clientIP := clientHost.getD "unknown"
  let h2 :=
    match hdrGet h1 "x-forwarded-for" with
    | some v => hdrSet h1 "x-forwarded-for" (v ++ ", " ++ clientIP)
    | none => hdrSet h1 "x-forwarded-for" clientIP
  hdrSet h2 "x-gateway-secret" proxySecretKey

/-- Run `check_service_health` for each key of the routes dict in turn
(the `asyncio.gather` of `service_health_check`; each task writes only its
own key), threading the `service_health` map and collecting the returned
booleans in order. -/
def runProbes (routes : Routes) (keys : List String) (health : HealthMap)
    (outcomes : String → ProbeOutcome) (now : ℚ) : List Bool × HealthMap :=
  match keys with
  | [] => ([], health)
  | k :: ks =>
    let r := check_service_health routes health k (outcomes k) now
    let rest := runProbes routes ks r.2 outcomes now
    (r.1 :: rest.1, rest.2)

/-- One entry of the `services` object returned by `GET /services/health`:
`url`, `is_healthy` (the fresh probe result), `last_checked` (from the
stored status, defaulting to the current time), `error`
(`stored.get("error")`). -/
structure ReportEntry where
  url : Option String
  is_healthy : Bool
  last_checked : ℚ
  error : Option String
deriving DecidableEq

/-- `service_health_check` (router.py lines 162-191): probe every
configured route, then build the per-route report from the fresh results
and the updated `service_health` map. -/
def service_health_check (routes : Routes) (health : HealthMap)
    (outcomes : String → ProbeOutcome) (now : ℚ) :
    List (String × ReportEntry) :=
  let probed := runProbes routes (routes.map (·.1)) health outcomes now
  (routes.zip probed.1).map (fun x =>
    let status := lookupHealth probed.2 x.1.1
    (x.1.1,
     ⟨x.1.2.url, x.2, (status.map (·.last_checked)).getD now,
      status.bind (·.error)⟩))

/-- The fields of `Settings` that `create_service_routes` reads.  Each is
looked up with `values.get(...)`, which yields `None` for a field that is
absent from the validated data, so every field is optional here. -/
structure RouteSettings where
  ENV : Option String
  AUTH_SERVICE_URL : Option String
  REPORTS_SERVICE_URL : Option String
  ALERTS_SERVICE_URL : Option String
  MAP_SERVICE_URL : Option String
  AI_SERVICE_URL : Option String
  AUDIT_SERVICE_URL : Option String
  DEV_AUTH_SERVICE_URL : Option String
  DEV_REPORTS_SERVICE_URL : Option String
  DEV_ALERTS_SERVICE_URL : Option String
  DEV_MAP_SERVICE_URL : Option String
  DEV_AI_SERVICE_URL : Option String
  DEV_AUDIT_SERVICE_URL : Option String

/-- The route table before pydantic's type validation: the `"url"` values
may be `None`. -/
abbrev RawRoutes := List (String × Option String × String)

/-- The six default routes built by `create_service_routes` from the (dev
or production) service URL fields. -/
def defaultRoutes (s : RouteSettings) : RawRoutes :=
  let isDev := s.ENV == some "development"
  [("/auth", if isDev then s.DEV_AUTH_SERVICE_URL else s.AUTH_SERVICE_URL, "/health"),
   ("/reports", if isDev then s.DEV_REPORTS_SERVICE_URL else s.REPORTS_SERVICE_URL, "/health"),
   ("/alerts", if isDev then s.DEV_ALERTS_SERVICE_URL else s.ALERTS_SERVICE_URL, "/health"),
   ("/map", if isDev then s.DEV_MAP_SERVICE_URL else s.MAP_SERVICE_URL, "/health"),
   ("/ai", if isDev then s.DEV_AI_SERVICE_URL else s.AI_SERVICE_URL, "/health"),
   ("/audit", if isDev then s.DEV_AUDIT_SERVICE_URL else s.AUDIT_SERVICE_URL, "/health")]

/-- `Settings.create_service_routes` (config.py lines 135-169), the
`mode="before"` validator for `SERVICE_ROUTES`: an explicitly provided
truthy (non-empty) value passes through; otherwise the six default routes
are built from the service URL fields. -/
def create_service_routes (v : Option RawRoutes) (s : RouteSettings) :
    RawRoutes :=
  match v with
  | some routes => if routes.isEmpty then defaultRoutes s else routes
  | none => defaultRoutes s

/-- Pydantic's validation of the annotated type
`SERVICE_ROUTES: Dict[str, Dict[str, str]]`, applied to the output of the
`mode="before"` validator: every inner value must be a string, so a `None`
`"url"` makes `Settings()` raise a `ValidationError`. -/
def validateRoutes (raw : RawRoutes) : Except String Routes :=
  match raw with
  | [] => .ok []
  | (k, url, healthPath) :: rest =>
    match url with
    | none => .error ("validation error for SERVICE_ROUTES at " ++ k)
    | some u =>
      match validateRoutes rest with
      | .ok tail => .ok ((k, ⟨some u, healthPath⟩) :: tail)
      | .error e => .error e

/-- Loading `SERVICE_ROUTES` during `Settings()` construction when the
module loads (startup): run the before-validator, then pydantic's type
validation. -/
def loadServiceRoutes (v : Option RawRoutes) (s : RouteSettings) :
    Except String Routes :=
  validateRoutes (create_service_routes v s)

/-- The boolean `check_service_health` computes for a probe outcome on a
route whose URL is truthy: `status_code == 200` for a completed response,
`False` for a raised exception. -/
def healthOfOutcome : ProbeOutcome → Bool
  | .response code => code == 200
  | .failure _ => false

/-- The `error` value `check_service_health` stores for a probe outcome on
a route whose URL is truthy: absent for a completed response (any status),
the exception text for a raised exception. -/
def errorOfOutcome : ProbeOutcome → Option String
  | .response _ => none
  | .failure e => some e

/-! Theorems. -/

/-- C10: a call to the rate limiter's check operation with limit 0
(respectively period 0) behaves identically to a call with that argument
omitted, because Python's `limit or self.default_limit` treats both `None`
and `0` as falsy; so a zero limit never rejects all requests. -/
theorem c10_zero_uses_default (store : MemStore) (now : ℚ)
    (defaultLimit defaultPeriod : ℤ) (limit period : Option ℤ) :
    check store now defaultLimit defaultPeriod (some 0) period
        = check store now defaultLimit defaultPeriod none period ∧
    check store now defaultLimit defaultPeriod limit (some 0)
        = check store now defaultLimit defaultPeriod limit none := by
  constructor <;> rfl

/-- C3: when the Redis backend raises any error during the check
operation, the operation returns `allowed = true`, `remaining` equal to
the configured limit, and `reset_time` equal to `int(now) + period`, and
propagates no error (the model is a total function whose error branch is
this triple). -/
theorem c3_fail_open (store : List ℚ) (now : ℚ) (limit period : ℤ) :
    (check_redis store now limit period false).1
      = ⟨true, limit, pyInt now + period⟩ := rfl

/-- C2 counterexample: on the Redis backend the claim fails.  With one
recorded timestamp `0`, `limit = 1`, `period = 60`, a call at `now = 10`
is rejected, yet the stored set afterwards is `[0, 10]` — the current
timestamp was recorded — and not the claimed prior-set-minus-expired
`[0]`, because `zadd` runs before `zcard` unconditionally. -/
theorem c2_counterexample :
    (check_redis [(0 : ℚ)] 10 1 60 true).1.allowed = false ∧
    (check_redis [(0 : ℚ)] 10 1 60 true).2 = [0, 10] ∧
    [(0 : ℚ), 10] ≠ ([(0 : ℚ)].filter (fun ts => decide ((10 : ℚ) - 60 < ts))) := by
  refine ⟨?_, ?_, ?_⟩ <;> simp [check_redis, pyInt] <;> norm_num

/-- C2 (amended): for the in-memory backend, a rejected call leaves the
stored timestamp set equal to the prior set with expired entries (not
newer than `now - period`) removed; for the Redis backend, every call —
allowed or rejected — leaves the set equal to the prior set with entries
in `[0, now - period]` removed plus the current timestamp. -/
theorem c2_amended :
    (∀ (store : MemStore) (now : ℚ) (limit period : ℤ),
       (check_memory store now limit period).1.allowed = false →
       (check_memory store now limit period).2
         = store.filter (fun ts => decide (now - (period : ℚ) < ts))) ∧
    (∀ (store : List ℚ) (now : ℚ) (limit period : ℤ),
       (check_redis store now limit period true).2
         = (let pruned := store.filter
              (fun ts => !(decide (0 ≤ ts) && decide (ts ≤ now - (period : ℚ))))
            if now ∈ pruned then pruned else pruned ++ [now])) := by
  constructor
  · intro store now limit period h
    simp only [check_memory] at h ⊢
    rw [h]
    simp [List.filter_filter]
  · intro store now limit period
    rfl

/-- Witness for C2 (amended): a concrete rejected in-memory call at which
the store equation holds. -/
theorem c2_amended_witness :
    (check_memory [(0 : ℚ)] 10 1 60).1.allowed = false ∧
    (check_memory [(0 : ℚ)] 10 1 60).2
      = [(0 : ℚ)].filter (fun ts => decide ((10 : ℚ) - (60 : ℤ) < ts)) := by
  have h : (check_memory [(0 : ℚ)] 10 1 60).1.allowed = false := by
    simp [check_memory]; norm_num
  exact ⟨h, c2_amended.1 [(0 : ℚ)] 10 1 60 h⟩

/-- C9: with limit 2 and period 60, three requests within one second
(times 0, 1/2, 3/4) through the rate-limiting middleware yield statuses
200, 200, 429, and the third response carries
`X-RateLimit-Remaining: "0"`. -/
theorem c9_scenario :
    (dispatch true [] 0 2 60 200).1.status = 200 ∧
    (dispatch true (dispatch true [] 0 2 60 200).2 (1/2) 2 60 200).1.status = 200 ∧
    (dispatch true (dispatch true (dispatch true [] 0 2 60 200).2 (1/2) 2 60 200).2
        (3/4) 2 60 200).1.status = 429 ∧
    (dispatch true (dispatch true (dispatch true [] 0 2 60 200).2 (1/2) 2 60 200).2
        (3/4) 2 60 200).1.rateLimitRemaining = some "0" := by
  refine ⟨?_, ?_, ?_, ?_⟩ <;>
    simp [dispatch, check, check_memory, effectiveParam, pyInt, pyMod] <;> norm_num
  rfl

lemma find?_map_update_self {α : Type} (h : List (String × α)) (k : String) (v : α) :
    (h.map (fun kv => if kv.1 == k then (k, v) else kv)).find? (fun kv => kv.1 == k)
      = if (h.find? (fun kv => kv.1 == k)).isSome then some (k, v) else none := by
  induction h with
  | nil => rfl
  | cons kv t ih =>
    simp only [List.map_cons]
    by_cases hk : kv.1 == k
    · rw [if_pos hk, List.find?_cons_of_pos _ (by simp),
        @List.find?_cons_of_pos _ (fun kv => kv.1 == k) kv t hk]
      rfl
    · rw [if_neg hk,
        @List.find?_cons_of_neg _ (fun kv => kv.1 == k) kv
          (t.map (fun kv => if kv.1 == k then (k, v) else kv)) hk,
        @List.find?_cons_of_neg _ (fun kv => kv.1 == k) kv t hk, ih]

lemma find?_map_update_ne {α : Type} (h : List (String × α)) (k k' : String) (v : α) (hne : k' ≠ k) :
    (h.map (fun kv => if kv.1 == k' then (k', v) else kv)).find? (fun kv => kv.1 == k)
      = h.find? (fun kv => kv.1 == k) := by
  induction h with
  | nil => rfl
  | cons kv t ih =>
    simp only [List.map_cons]
    by_cases hk : kv.1 == k'
    · have h1 : kv.1 = k' := by simpa using hk
      have h3 : ¬((kv.1 == k) = true) := by simp [h1, hne]
      rw [if_pos hk,
        @List.find?_cons_of_neg _ (fun kv => kv.1 == k) (k', v)
          (t.map (fun kv => if kv.1 == k' then (k', v) else kv)) (by simpa using hne),
        @List.find?_cons_of_neg _ (fun kv => kv.1 == k) kv t h3, ih]
    · by_cases hk2 : kv.1 == k
      · rw [if_neg hk,
          @List.find?_cons_of_pos _ (fun kv => kv.1 == k) kv
            (t.map (fun kv => if kv.1 == k' then (k', v) else kv)) hk2,
          @List.find?_cons_of_pos _ (fun kv => kv.1 == k) kv t hk2]
      · rw [if_neg hk,
          @List.find?_cons_of_neg _ (fun kv => kv.1 == k) kv
            (t.map (fun kv => if kv.1 == k' then (k', v) else kv)) hk2,
          @List.find?_cons_of_neg _ (fun kv => kv.1 == k) kv t hk2, ih]

lemma hdrGet_set_self (h : Headers) (k v : String) :
    hdrGet (hdrSet h k v) k = some v := by
  unfold hdrSet hdrGet
  by_cases hs : (h.find? (fun kv => kv.1 == k)).isSome
  · rw [if_pos hs, find?_map_update_self h k v, if_pos hs]
    rfl
  · have hn : h.find? (fun kv => kv.1 == k) = none := by
      cases hh : h.find? (fun kv => kv.1 == k) <;> simp_all
    rw [if_neg hs, List.find?_append, hn]
    simp

lemma hdrGet_set_ne (h : Headers) (k k' v : String) (hne : k' ≠ k) :
    hdrGet (hdrSet h k' v) k = hdrGet h k := by
  unfold hdrSet hdrGet
  by_cases hs : (h.find? (fun kv => kv.1 == k')).isSome
  · rw [if_pos hs, find?_map_update_ne h k k' v hne]
  · rw [if_neg hs, List.find?_append]
    have h2 : List.find? (fun kv => kv.1 == k) [(k', v)] = none := by
      simp [hne]
    rw [h2]
    simp

lemma find?_filter_ne (h : Headers) (k k' : String) (hne : k' ≠ k) :
    List.find? (fun kv => kv.1 == k) (h.filter (fun kv => kv.1 != k'))
      = List.find? (fun kv => kv.1 == k) h := by
  induction h with
  | nil => rfl
  | cons kv t ih =>
    rw [List.filter_cons]
    by_cases hk : kv.1 == k'
    · have h1 : kv.1 = k' := by simpa using hk
      have h3 : ¬((kv.1 == k) = true) := by simp [h1, hne]
      rw [if_neg (by simp [h1]), ih,
        @List.find?_cons_of_neg _ (fun kv => kv.1 == k) kv t h3]
    · have hq : (kv.1 != k') = true := by simpa [bne] using hk
      rw [if_pos (by simp [hq])]
      by_cases hk2 : kv.1 == k
      · rw [@List.find?_cons_of_pos _ (fun kv => kv.1 == k) kv
            (t.filter (fun kv => kv.1 != k')) hk2,
          @List.find?_cons_of_pos _ (fun kv => kv.1 == k) kv t hk2]
      · rw [@List.find?_cons_of_neg _ (fun kv => kv.1 == k) kv
            (t.filter (fun kv => kv.1 != k')) hk2,
          @List.find?_cons_of_neg _ (fun kv => kv.1 == k) kv t hk2, ih]

lemma hdrGet_pop_self (h : Headers) (k : String) :
    hdrGet (hdrPop h k) k = none := by
  unfold hdrGet hdrPop
  have hn : List.find? (fun kv => kv.1 == k) (h.filter (fun kv => kv.1 != k)) = none := by
    rw [List.find?_eq_none]
    intro x hx
    have hx2 := (List.mem_filter.mp hx).2
    simpa [bne] using hx2
  rw [hn]
  rfl

lemma hdrGet_pop_ne (h : Headers) (k k' : String) (hne : k' ≠ k) :
    hdrGet (hdrPop h k') k = hdrGet h k := by
  unfold hdrGet hdrPop
  rw [find?_filter_ne h k k' hne]

/-- C6: the outbound headers built by `preserve_headers` never contain
`host`, `connection`, or `content-length`; they always contain
`x-gateway-secret` set to the configured secret and `x-forwarded-for`
equal to the inbound value with the client IP appended when present and
the client IP otherwise; every other inbound header is copied
unchanged. -/
theorem c6_header_hygiene (h : Headers) (clientHost : Option String) (secret : String) :
    hdrGet (preserve_headers h clientHost secret) "host" = none ∧
    hdrGet (preserve_headers h clientHost secret) "connection" = none ∧
    hdrGet (preserve_headers h clientHost secret) "content-length" = none ∧
    hdrGet (preserve_headers h clientHost secret) "x-gateway-secret" = some secret ∧
    hdrGet (preserve_headers h clientHost secret) "x-forwarded-for"
      = some (match hdrGet h "x-forwarded-for" with
              | some v => v ++ ", " ++ clientHost.getD "unknown"
              | none => clientHost.getD "unknown") ∧
    (∀ k, k ≠ "host" → k ≠ "connection" → k ≠ "content-length" →
       k ≠ "x-forwarded-for" → k ≠ "x-gateway-secret" →
       hdrGet (preserve_headers h clientHost secret) k = hdrGet h k) := by
  unfold preserve_headers
  have hxff : hdrGet (hdrPop (hdrPop (hdrPop h "host") "connection") "content-length")
      "x-forwarded-for" = hdrGet h "x-forwarded-for" := by
    rw [hdrGet_pop_ne _ _ _ (by decide), hdrGet_pop_ne _ _ _ (by decide),
      hdrGet_pop_ne _ _ _ (by decide)]
  cases hx : hdrGet h "x-forwarded-for" with
  | none =>
    simp only [hxff, hx]
    refine ⟨?_, ?_, ?_, ?_, ?_, ?_⟩
    · rw [hdrGet_set_ne _ _ _ _ (by decide), hdrGet_set_ne _ _ _ _ (by decide),
        hdrGet_pop_ne _ _ _ (by decide), hdrGet_pop_ne _ _ _ (by decide), hdrGet_pop_self]
    · rw [hdrGet_set_ne _ _ _ _ (by decide), hdrGet_set_ne _ _ _ _ (by decide),
        hdrGet_pop_ne _ _ _ (by decide), hdrGet_pop_self]
    · rw [hdrGet_set_ne _ _ _ _ (by decide), hdrGet_set_ne _ _ _ _ (by decide),
        hdrGet_pop_self]
    · rw [hdrGet_set_self]
    · rw [hdrGet_set_ne _ _ _ _ (by decide), hdrGet_set_self]
    · intro k h1 h2 h3 h4 h5
      rw [hdrGet_set_ne _ _ _ _ (Ne.symm h5), hdrGet_set_ne _ _ _ _ (Ne.symm h4),
        hdrGet_pop_ne _ _ _ (Ne.symm h3), hdrGet_pop_ne _ _ _ (Ne.symm h2),
        hdrGet_pop_ne _ _ _ (Ne.symm h1)]
  | some v =>
    simp only [hxff, hx]
    refine ⟨?_, ?_, ?_, ?_, ?_, ?_⟩
    · rw [hdrGet_set_ne _ _ _ _ (by decide), hdrGet_set_ne _ _ _ _ (by decide),
        hdrGet_pop_ne _ _ _ (by decide), hdrGet_pop_ne _ _ _ (by decide), hdrGet_pop_self]
    · rw [hdrGet_set_ne _ _ _ _ (by decide), hdrGet_set_ne _ _ _ _ (by decide),
        hdrGet_pop_ne _ _ _ (by decide), hdrGet_pop_self]
    · rw [hdrGet_set_ne _ _ _ _ (by decide), hdrGet_set_ne _ _ _ _ (by decide),
        hdrGet_pop_self]
    · rw [hdrGet_set_self]
    · rw [hdrGet_set_ne _ _ _ _ (by decide), hdrGet_set_self]
    · intro k h1 h2 h3 h4 h5
      rw [hdrGet_set_ne _ _ _ _ (Ne.symm h5), hdrGet_set_ne _ _ _ _ (Ne.symm h4),
        hdrGet_pop_ne _ _ _ (Ne.symm h3), hdrGet_pop_ne _ _ _ (Ne.symm h2),
        hdrGet_pop_ne _ _ _ (Ne.symm h1)]

/-- Witness for C6: a concrete inbound header copied unchanged. -/
theorem c6_witness :
    hdrGet (preserve_headers [("accept", "text/html")] (some "9.9.9.9") "s") "accept"
      = some "text/html" := by
  have h := (c6_header_hygiene [("accept", "text/html")] (some "9.9.9.9") "s").2.2.2.2.2
    "accept" (by decide) (by decide) (by decide) (by decide) (by decide)
  rw [h]
  rfl

lemma findRoute_no_match (routes : Routes) (np : String) (health : HealthMap)
    (now : ℚ) (orig : String)
    (h : ∀ r ∈ routes, ¬(startswith np r.1 = true)) :
    findRoute routes np health now orig
      = .error (.httpError 404 ("No service configured for path: " ++ orig)) := by
  induction routes with
  | nil => rfl
  | cons r rest ih =>
    cases r with
    | mk rp info =>
      simp only [findRoute]
      rw [if_neg (h (rp, info) (by simp))]
      exact ih (fun x hx => h x (by simp [hx]))

lemma findRoute_first_match (np : String) (health : HealthMap) (now : ℚ)
    (orig : String) (rp : String) (info : ServiceInfo) (post : Routes)
    (u : String) (hmatch : startswith np rp = true) (hu : info.url = some u)
    (hne : (u == "") = false) :
    ∀ pre : Routes, (∀ r ∈ pre, ¬(startswith np r.1 = true)) →
      ∃ b, findRoute (pre ++ (rp, info) :: post) np health now orig = .ok ⟨u, b⟩ := by
  intro pre
  induction pre with
  | nil =>
    intro _
    simp only [List.nil_append, findRoute]
    rw [if_pos hmatch, hu]
    simp only [hne]
    exact ⟨_, rfl⟩
  | cons r rest ih =>
    intro h
    cases r with
    | mk rp2 info2 =>
      simp only [List.cons_append, findRoute]
      rw [if_neg (h (rp2, info2) (by simp))]
      exact ih (fun x hx => h x (by simp [hx]))

/-- C4: route resolution normalizes the path to a leading slash, scans
the configured routes in configuration order, and returns the backend URL
of the first route whose route path is a string-prefix of the normalized
path; when no configured route matches it fails with HTTP 404 and the
attempted path appears verbatim in the error message. -/
theorem c4_route_resolution (routes : Routes) (health : HealthMap) (now : ℚ)
    (path : String) :
    ((∀ r ∈ routes,
        ¬(startswith (if startswith path "/" then path else "/" ++ path) r.1 = true)) →
      get_service_url routes health now path
        = .error (.httpError 404 ("No service configured for path: " ++ path))) ∧
    (∀ (pre : Routes) (rp : String) (info : ServiceInfo) (post : Routes) (u : String),
      routes = pre ++ (rp, info) :: post →
      (∀ r ∈ pre,
        ¬(startswith (if startswith path "/" then path else "/" ++ path) r.1 = true)) →
      startswith (if startswith path "/" then path else "/" ++ path) rp = true →
      info.url = some u → (u == "") = false →
      ∃ b, get_service_url routes health now path = .ok ⟨u, b⟩) := by
  constructor
  · intro h
    exact findRoute_no_match routes _ health now path h
  · intro pre rp info post u hsplit hpre hmatch hu hne
    subst hsplit
    exact findRoute_first_match _ health now path rp info post u hmatch hu hne pre hpre

/-- Witness for C4: the 404 branch at `/unknown/path` and the first-match
branch at `auth/ping` against a one-route table. -/
theorem c4_witness :
    (get_service_url [("/auth", ⟨some "http://auth-service:8000", "/health"⟩)] [] 0
        "/unknown/path"
      = .error (.httpError 404 "No service configured for path: /unknown/path")) ∧
    (∃ b, get_service_url [("/auth", ⟨some "http://auth-service:8000", "/health"⟩)] [] 0
        "auth/ping"
      = .ok ⟨"http://auth-service:8000", b⟩) := by
  constructor
  · have h := (c4_route_resolution
      [("/auth", ⟨some "http://auth-service:8000", "/health"⟩)] [] 0 "/unknown/path").1
      (by decide)
    rw [h]
    rfl
  · exact (c4_route_resolution
      [("/auth", ⟨some "http://auth-service:8000", "/health"⟩)] [] 0 "auth/ping").2
      [] "/auth" ⟨some "http://auth-service:8000", "/health"⟩ [] "http://auth-service:8000"
      rfl (by simp) (by decide) rfl (by decide)

lemma validateRoutes_error (raw : RawRoutes)
    (h : ∃ e ∈ raw, e.2.1 = none) :
    ∃ msg, validateRoutes raw = .error msg := by
  induction raw with
  | nil => simp at h
  | cons e rest ih =>
    cases e with
    | mk k rst =>
      cases rst with
      | mk url healthPath =>
        cases url with
        | none => exact ⟨_, rfl⟩
        | some u =>
          rcases h with ⟨e2, he2, hnone⟩
          rcases List.mem_cons.mp he2 with h1 | h2
          · subst h1
            simp at hnone
          · rcases ih ⟨e2, h2, hnone⟩ with ⟨msg, hmsg⟩
            refine ⟨msg, ?_⟩
            simp only [validateRoutes, hmsg]

/-- The route-scanning loop raising `ServiceUnavailableError` when the
first matching route's URL is falsy (`None` or the empty string). -/
lemma findRoute_first_match_falsy (np : String) (health : HealthMap) (now : ℚ)
    (orig : String) (rp : String) (info : ServiceInfo) (post : Routes)
    (hmatch : startswith np rp = true)
    (hfalsy : info.url = none ∨ info.url = some "") :
    ∀ pre : Routes, (∀ r ∈ pre, ¬(startswith np r.1 = true)) →
      findRoute (pre ++ (rp, info) :: post) np health now orig
        = .error (.serviceUnavailable
            ("Service configuration for " ++ rp ++ " is missing")) := by
  intro pre
  induction pre with
  | nil =>
    intro _
    simp only [List.nil_append, findRoute]
    rw [if_pos hmatch]
    rcases hfalsy with h | h
    · rw [h]
    · rw [h]
      rfl
  | cons r rest ih =>
    intro h
    cases r with
    | mk rp2 info2 =>
      simp only [List.cons_append, findRoute]
      rw [if_neg (h (rp2, info2) (by simp))]
      exact ih (fun x hx => h x (by simp [hx]))

/-- C5 counterexample: a route lacking a backend URL in the falsy sense —
the URL set to the empty string, as an empty environment variable yields —
passes `Settings()` construction (the empty string is a valid `str` for
`Dict[str, Dict[str, str]]`), and the missing URL is then detected only at
request time, when `get_service_url` raises `ServiceUnavailableError`;
so construction does not fail at startup for every lacking-URL route. -/
theorem c5_counterexample :
    (loadServiceRoutes none
        ⟨some "production", some "", some "http://reports-service:8001",
         some "http://alerts-service:8002", some "http://map-service:8003",
         some "http://ai-service:8004", some "http://audit-service:8005",
         none, none, none, none, none, none⟩
      = .ok [("/auth", ⟨some "", "/health"⟩),
             ("/reports", ⟨some "http://reports-service:8001", "/health"⟩),
             ("/alerts", ⟨some "http://alerts-service:8002", "/health"⟩),
             ("/map", ⟨some "http://map-service:8003", "/health"⟩),
             ("/ai", ⟨some "http://ai-service:8004", "/health"⟩),
             ("/audit", ⟨some "http://audit-service:8005", "/health"⟩)]) ∧
    (get_service_url
        [("/auth", ⟨some "", "/health"⟩),
         ("/reports", ⟨some "http://reports-service:8001", "/health"⟩),
         ("/alerts", ⟨some "http://alerts-service:8002", "/health"⟩),
         ("/map", ⟨some "http://map-service:8003", "/health"⟩),
         ("/ai", ⟨some "http://ai-service:8004", "/health"⟩),
         ("/audit", ⟨some "http://audit-service:8005", "/health"⟩)] [] 0 "/auth/login"
      = .error (.serviceUnavailable "Service configuration for /auth is missing")) :=
  ⟨rfl, rfl⟩

/-- C5 (amended): a configured route whose URL value is `None` does fail
`Settings()` construction at startup, because pydantic's annotated type
`Dict[str, Dict[str, str]]` rejects `None`; but validation accepts every
string, so a route whose URL is the empty string (lacking a backend URL in
the Python-falsy sense that `get_service_url` tests) passes construction,
and the missing URL is detected only at request time, when the first
matching route with a falsy URL makes `get_service_url` raise
`ServiceUnavailableError` naming the route. -/
theorem c5_amended :
    (∀ (v : Option RawRoutes) (s : RouteSettings),
      (∃ e ∈ create_service_routes v s, e.2.1 = none) →
      ∃ msg, loadServiceRoutes v s = .error msg) ∧
    (∀ raw : RawRoutes, (∀ e ∈ raw, e.2.1 ≠ none) →
      ∃ routes, validateRoutes raw = .ok routes) ∧
    (∀ (routes : Routes) (health : HealthMap) (now : ℚ) (path : String)
        (pre : Routes) (rp : String) (info : ServiceInfo) (post : Routes),
      routes = pre ++ (rp, info) :: post →
      (∀ r ∈ pre,
        ¬(startswith (if startswith path "/" then path else "/" ++ path) r.1 = true)) →
      startswith (if startswith path "/" then path else "/" ++ path) rp = true →
      (info.url = none ∨ info.url = some "") →
      get_service_url routes health now path
        = .error (.serviceUnavailable
            ("Service configuration for " ++ rp ++ " is missing"))) := by
  refine ⟨fun v s h => validateRoutes_error _ h, ?_, ?_⟩
  · intro raw
    induction raw with
    | nil => intro _; exact ⟨[], rfl⟩
    | cons e rest ih =>
      intro h
      cases e with
      | mk k rst =>
        cases rst with
        | mk url healthPath =>
          cases url with
          | none =>
            exact absurd rfl (h (k, none, healthPath) (by simp))
          | some u =>
            rcases ih (fun x hx hn => h x (by simp [hx]) hn) with ⟨tail, htail⟩
            refine ⟨(k, ⟨some u, healthPath⟩) :: tail, ?_⟩
            simp only [validateRoutes, htail]
  · intro routes health now path pre rp info post hsplit hpre hmatch hfalsy
    subst hsplit
    exact findRoute_first_match_falsy _ health now path rp info post hmatch hfalsy pre hpre

/-- Witness for C5 (amended): a `None` URL errors at load, and a request
for `/auth/login` against a table whose `/auth` URL is the empty string is
rejected at request time with `ServiceUnavailableError`. -/
theorem c5_amended_witness :
    (∃ msg, loadServiceRoutes none
        ⟨some "production", none, some "http://reports-service:8001",
         some "http://alerts-service:8002", some "http://map-service:8003",
         some "http://ai-service:8004", some "http://audit-service:8005",
         none, none, none, none, none, none⟩ = .error msg) ∧
    (∃ routes, validateRoutes [("/auth", some "", "/health")] = .ok routes) ∧
    (get_service_url [("/auth", ⟨some "", "/health"⟩)] [] 0 "/auth/login"
      = .error (.serviceUnavailable "Service configuration for /auth is missing")) := by
  refine ⟨?_, ?_, ?_⟩
  · exact c5_amended.1 none
      ⟨some "production", none, some "http://reports-service:8001",
       some "http://alerts-service:8002", some "http://map-service:8003",
       some "http://ai-service:8004", some "http://audit-service:8005",
       none, none, none, none, none, none⟩
      ⟨("/auth", none, "/health"), by decide, rfl⟩
  · exact c5_amended.2.1 [("/auth", some "", "/health")] (by decide)
  · exact c5_amended.2.2 [("/auth", ⟨some "", "/health"⟩)] [] 0 "/auth/login"
      [] "/auth" ⟨some "", "/health"⟩ [] rfl (by simp) (by decide) (Or.inr rfl)

lemma findRoute_url_indep (np orig : String) :
    ∀ (routes : Routes) (h1 h2 : HealthMap) (n1 n2 : ℚ),
      (findRoute routes np h1 n1 orig).map (·.url)
        = (findRoute routes np h2 n2 orig).map (·.url) := by
  intro routes
  induction routes with
  | nil => intro h1 h2 n1 n2; rfl
  | cons r rest ih =>
    intro h1 h2 n1 n2
    cases r with
    | mk rp info =>
      simp only [findRoute]
      by_cases hm : startswith np rp = true
      · rw [if_pos hm, if_pos hm]
        cases info.url with
        | none => rfl
        | some u =>
          by_cases hne : (u == "") = true
          · simp [hne]
          · simp [hne, Except.map]
      · rw [if_neg hm, if_neg hm]
        exact ih h1 h2 n1 n2

/-- C8: for any probe failure the health-check operation returns the
boolean `false` and records the failure in the health map when the route
is configured with a truthy URL (and leaves the map untouched otherwise)
— it is a total function, so no exception propagates; and the value
produced by route resolution is independent of the health map and clock,
which only steer the fire-and-forget refresh flag. -/
theorem c8_health_no_raise (routes : Routes) (health : HealthMap)
    (servicePath : String) (e : String) (now : ℚ) :
    ((check_service_health routes health servicePath (.failure e) now).1 = false) ∧
    ((check_service_health routes health servicePath (.failure e) now).2
      = match lookupRoute routes servicePath with
        | none => health
        | some info =>
          if truthy info.url then setHealth health servicePath ⟨false, now, some e⟩
          else health) ∧
    (∀ (health2 : HealthMap) (now2 : ℚ) (path : String),
      (get_service_url routes health now path).map (·.url)
        = (get_service_url routes health2 now2 path).map (·.url)) := by
  refine ⟨?_, ?_, ?_⟩
  · cases hl : lookupRoute routes servicePath with
    | none => simp [check_service_health, hl]
    | some info =>
      by_cases ht : truthy info.url = true <;>
        simp [check_service_health, hl, ht]
  · cases hl : lookupRoute routes servicePath with
    | none => simp [check_service_health, hl]
    | some info =>
      by_cases ht : truthy info.url = true <;>
        simp [check_service_health, hl, ht]
  · intro health2 now2 path
    exact findRoute_url_indep _ path routes health health2 now now2

lemma lookupHealth_setHealth_self (m : HealthMap) (k : String) (st : HealthStatus) :
    lookupHealth (setHealth m k st) k = some st := by
  unfold setHealth lookupHealth
  by_cases hs : (m.find? (fun kv => kv.1 == k)).isSome
  · rw [if_pos hs, find?_map_update_self m k st, if_pos hs]
    rfl
  · have hn : m.find? (fun kv => kv.1 == k) = none := by
      cases hh : m.find? (fun kv => kv.1 == k) <;> simp_all
    rw [if_neg hs, List.find?_append, hn]
    simp

lemma lookupHealth_setHealth_ne (m : HealthMap) (k k' : String) (st : HealthStatus)
    (hne : k' ≠ k) :
    lookupHealth (setHealth m k' st) k = lookupHealth m k := by
  unfold setHealth lookupHealth
  by_cases hs : (m.find? (fun kv => kv.1 == k')).isSome
  · rw [if_pos hs, find?_map_update_ne m k k' st hne]
  · rw [if_neg hs, List.find?_append]
    have h2 : List.find? (fun kv => kv.1 == k) [(k', st)] = none := by
      simp [hne]
    rw [h2]
    simp

lemma check_service_health_spec (routes : Routes) (health : HealthMap) (p : String)
    (info : ServiceInfo) (outcome : ProbeOutcome) (now : ℚ)
    (hr : lookupRoute routes p = some info) (hu : truthy info.url = true) :
    check_service_health routes health p outcome now
      = (healthOfOutcome outcome,
         setHealth health p ⟨healthOfOutcome outcome, now, errorOfOutcome outcome⟩) := by
  cases outcome <;>
    simp [check_service_health, hr, hu, healthOfOutcome, errorOfOutcome]

lemma check_service_health_other (routes : Routes) (health : HealthMap)
    (p q : String) (outcome : ProbeOutcome) (now : ℚ) (hne : p ≠ q) :
    lookupHealth (check_service_health routes health p outcome now).2 q
      = lookupHealth health q := by
  cases hl : lookupRoute routes p with
  | none => simp [check_service_health, hl]
  | some info =>
    by_cases hu : truthy info.url = true
    · cases outcome <;>
        simp [check_service_health, hl, hu, lookupHealth_setHealth_ne _ _ _ _ hne]
    · cases outcome <;> simp [check_service_health, hl, hu]

lemma runProbes_preserve (routes : Routes) (outcomes : String → ProbeOutcome)
    (now : ℚ) (p : String) :
    ∀ (keys : List String) (health : HealthMap), p ∉ keys →
      lookupHealth (runProbes routes keys health outcomes now).2 p
        = lookupHealth health p := by
  intro keys
  induction keys with
  | nil => intro health _; rfl
  | cons k ks ih =>
    intro health hp
    have hpk : p ≠ k := fun h => hp (by simp [h])
    have hpks : p ∉ ks := fun h => hp (by simp [h])
    simp only [runProbes]
    rw [ih _ hpks, check_service_health_other routes health k p (outcomes k) now
      (Ne.symm hpk)]

lemma runProbes_lookup (routes : Routes) (outcomes : String → ProbeOutcome)
    (now : ℚ) (p : String) (info : ServiceInfo)
    (hr : lookupRoute routes p = some info) (hu : truthy info.url = true) :
    ∀ (keys : List String) (health : HealthMap), p ∈ keys →
      lookupHealth (runProbes routes keys health outcomes now).2 p
        = some ⟨healthOfOutcome (outcomes p), now, errorOfOutcome (outcomes p)⟩ := by
  intro keys
  induction keys with
  | nil => intro health hp; simp at hp
  | cons k ks ih =>
    intro health hp
    simp only [runProbes]
    by_cases hpk : p ∈ ks
    · exact ih _ hpk
    · have hk : k = p := by
        rcases List.mem_cons.mp hp with h | h
        · exact h.symm
        · exact absurd h hpk
      subst hk
      rw [runProbes_preserve routes outcomes now k ks _ hpk,
        check_service_health_spec routes health k info (outcomes k) now hr hu]
      exact lookupHealth_setHealth_self _ _ _

lemma runProbes_zip_mem (routes : Routes) (outcomes : String → ProbeOutcome)
    (now : ℚ) (p : String) (info : ServiceInfo)
    (hr : lookupRoute routes p = some info) (hu : truthy info.url = true) :
    ∀ (rts : Routes) (health : HealthMap), (p, info) ∈ rts →
      ((p, info), healthOfOutcome (outcomes p)) ∈
        rts.zip (runProbes routes (rts.map (·.1)) health outcomes now).1 := by
  intro rts
  induction rts with
  | nil => intro health hmem; simp at hmem
  | cons r rest ih =>
    intro health hmem
    simp only [List.map_cons, runProbes, List.zip_cons_cons]
    rcases List.mem_cons.mp hmem with h1 | h2
    · subst h1
      rw [check_service_health_spec routes health p info (outcomes p) now hr hu]
      exact List.mem_cons_self _ _
    · exact List.mem_cons_of_mem _ (ih _ h2)

lemma lookupRoute_mem (routes : Routes) (p : String) (info : ServiceInfo)
    (hr : lookupRoute routes p = some info) : (p, info) ∈ routes := by
  unfold lookupRoute at hr
  cases hf : routes.find? (fun kv => kv.1 == p) with
  | none => rw [hf] at hr; simp at hr
  | some kv =>
    rw [hf] at hr
    have h1 : kv.1 = p := by simpa using List.find?_some hf
    have h2 : kv.2 = info := by simpa using hr
    have h3 := List.mem_of_find?_eq_some hf
    rw [← h1, ← h2]
    simpa using h3

/-- C7 counterexample: a completed probe with status 503 on a configured
route records the route as unhealthy but stores no error text (`error`
is `none`), refuting the claim that any non-200 status records the error
text in the stored status. -/
theorem c7_counterexample :
    (check_service_health [("/map", ⟨some "http://map-service:8003", "/health"⟩)] []
        "/map" (.response 503) 0).1 = false ∧
    lookupHealth (check_service_health
        [("/map", ⟨some "http://map-service:8003", "/health"⟩)] []
        "/map" (.response 503) 0).2 "/map" = some ⟨false, 0, none⟩ := by
  constructor
  · rfl
  · rfl

/-- C7 (amended): a completed probe records the route healthy exactly
when the status is 200, storing no error text for any completed response;
a raised exception (timeout, connection error) records the route
unhealthy with the exception text stored; and `GET /services/health`
re-probes and reports the route with the fresh health flag and the stored
error field (absent after a non-200 response). -/
theorem c7_amended (routes : Routes) (health : HealthMap) (p : String)
    (info : ServiceInfo) (now : ℚ)
    (hr : lookupRoute routes p = some info) (hu : truthy info.url = true) :
    (∀ code : ℕ,
      (check_service_health routes health p (.response code) now).1 = (code == 200) ∧
      lookupHealth (check_service_health routes health p (.response code) now).2 p
        = some ⟨code == 200, now, none⟩) ∧
    (∀ e : String,
      (check_service_health routes health p (.failure e) now).1 = false ∧
      lookupHealth (check_service_health routes health p (.failure e) now).2 p
        = some ⟨false, now, some e⟩) ∧
    (∀ outcomes : String → ProbeOutcome,
      (p, (⟨info.url, healthOfOutcome (outcomes p), now,
            errorOfOutcome (outcomes p)⟩ : ReportEntry)) ∈
        service_health_check routes health outcomes now) := by
  refine ⟨?_, ?_, ?_⟩
  · intro code
    rw [check_service_health_spec routes health p info (.response code) now hr hu]
    exact ⟨rfl, lookupHealth_setHealth_self _ _ _⟩
  · intro e
    rw [check_service_health_spec routes health p info (.failure e) now hr hu]
    exact ⟨rfl, lookupHealth_setHealth_self _ _ _⟩
  · intro outcomes
    have hmem := lookupRoute_mem routes p info hr
    have hzip := runProbes_zip_mem routes outcomes now p info hr hu routes health hmem
    have hkey : p ∈ routes.map (·.1) := by
      exact List.mem_map.mpr ⟨(p, info), hmem, rfl⟩
    have hlook := runProbes_lookup routes outcomes now p info hr hu
      (routes.map (·.1)) health hkey
    unfold service_health_check
    refine List.mem_map.mpr ⟨((p, info), healthOfOutcome (outcomes p)), hzip, ?_⟩
    simp only [hlook]
    rfl

/-- Witness for C7 (amended): a concrete failing probe recorded with its
error text. -/
theorem c7_witness :
    (check_service_health [("/map", ⟨some "http://map-service:8003", "/health"⟩)] []
        "/map" (.failure "boom") 0).1 = false ∧
    lookupHealth (check_service_health
        [("/map", ⟨some "http://map-service:8003", "/health"⟩)] []
        "/map" (.failure "boom") 0).2 "/map" = some ⟨false, 0, some "boom"⟩ :=
  (c7_amended [("/map", ⟨some "http://map-service:8003", "/health"⟩)] [] "/map"
    ⟨some "http://map-service:8003", "/health"⟩ 0 (by rfl) (by rfl)).2.1 "boom"

lemma filter_absorb (A : List ℚ) (T a b : ℚ) (h : a ≤ b) :
    (A.filter (fun ts => decide (a - T < ts))).filter (fun ts => decide (b - T < ts))
      = A.filter (fun ts => decide (b - T < ts)) := by
  rw [List.filter_filter]
  apply List.filter_congr
  intro x _
  by_cases hx : b - T < x
  · have hx2 : a - T < x := by linarith
    simp [hx, hx2]
  · simp [hx]

lemma check_memory_allowed (store : MemStore) (u : ℚ) (L T : ℤ) :
    (check_memory store u L T).1.allowed
      = decide (((store.filter (fun ts => decide (u - (T : ℚ) < ts))).length : ℤ) < L) :=
  rfl

lemma check_memory_step (L T : ℤ) (hT : (0 : ℚ) < (T : ℚ)) (A : List ℚ) (t₀ u : ℚ)
    (h₀ : t₀ ≤ u) :
    (check_memory (A.filter (fun ts => decide (t₀ - (T : ℚ) < ts))) u L T).1.allowed
      = decide (((A.countP (fun ts => decide (u - (T : ℚ) < ts))) : ℤ) < L) ∧
    (check_memory (A.filter (fun ts => decide (t₀ - (T : ℚ) < ts))) u L T).2
      = (if ((A.countP (fun ts => decide (u - (T : ℚ) < ts))) : ℤ) < L
         then A ++ [u] else A).filter (fun ts => decide (u - (T : ℚ) < ts)) := by
  have habs := filter_absorb A (T : ℚ) t₀ u h₀
  have hcount : ((A.filter (fun ts => decide (t₀ - (T : ℚ) < ts))).filter
      (fun ts => decide (u - (T : ℚ) < ts))).length
        = A.countP (fun ts => decide (u - (T : ℚ) < ts)) := by
    rw [habs, List.countP_eq_length_filter]
  have hT2 : (0 : ℤ) < T := by exact_mod_cast hT
  have hu_keep : (decide (u - (T : ℚ) < u)) = true := by
    simp only [decide_eq_true_eq]
    linarith
  have hidem : (A.filter (fun ts => decide (u - (T : ℚ) < ts))).filter
      (fun ts => decide (u - (T : ℚ) < ts))
        = A.filter (fun ts => decide (u - (T : ℚ) < ts)) := by
    rw [List.filter_filter]
    apply List.filter_congr
    intro x _
    cases hx : decide (u - (T : ℚ) < x) <;> simp [hx]
  have hRpos : (A ++ [u]).filter (fun ts => decide (u - (T : ℚ) < ts))
      = A.filter (fun ts => decide (u - (T : ℚ) < ts)) ++ [u] := by
    rw [List.filter_append]
    simp [hT2]
  have hsame : (A.filter (fun ts => decide (u - (T : ℚ) < ts)) ++ [u]).filter
      (fun ts => decide (u - (T : ℚ) < ts))
        = A.filter (fun ts => decide (u - (T : ℚ) < ts)) ++ [u] := by
    rw [List.filter_append, hidem]
    simp [hT2]
  refine ⟨by rw [check_memory_allowed, hcount], ?_⟩
  simp only [check_memory, habs, List.countP_eq_length_filter, decide_eq_true_eq]
  split_ifs with h h2 <;>
    first
      | rfl
      | exact hidem
      | (rw [hRpos]; exact hsame)
      | rw [hRpos]

lemma run_master (L T : ℤ) (hT : (0 : ℚ) < (T : ℚ)) :
    ∀ (times A : List ℚ) (t₀ : ℚ),
      times.Pairwise (· ≤ ·) → (∀ u ∈ times, t₀ ≤ u) →
      ((∀ v : ℚ, t₀ ≤ v → (∀ u ∈ times, u ≤ v) →
        (runStore L T (A.filter (fun ts => decide (t₀ - (T : ℚ) < ts))) times).filter
            (fun ts => decide (v - (T : ℚ) < ts))
          = (A ++ admittedTimes L T (A.filter (fun ts => decide (t₀ - (T : ℚ) < ts)))
              times).filter (fun ts => decide (v - (T : ℚ) < ts))) ∧
       ((∀ t : ℚ, ((A.countP
            (fun s => decide (t - (T : ℚ) < s) && decide (s ≤ t))) : ℤ) ≤ L) →
        ∀ t : ℚ, (((A ++ admittedTimes L T
              (A.filter (fun ts => decide (t₀ - (T : ℚ) < ts))) times).countP
            (fun s => decide (t - (T : ℚ) < s) && decide (s ≤ t))) : ℤ) ≤ L)) := by
  intro times
  induction times with
  | nil =>
    intro A t₀ _ _
    constructor
    · intro v hv _
      simp only [runStore, admittedTimes, List.append_nil]
      exact filter_absorb A (T : ℚ) t₀ v hv
    · intro hbound t
      simpa using hbound t
  | cons u rest ih =>
    intro A t₀ hpw hle
    have h₀ : t₀ ≤ u := hle u (List.mem_cons_self u rest)
    have hpw' : rest.Pairwise (· ≤ ·) := (List.pairwise_cons.mp hpw).2
    have hurest : ∀ w ∈ rest, u ≤ w := (List.pairwise_cons.mp hpw).1
    have hstep := check_memory_step L T hT A t₀ u h₀
    by_cases hallow : ((A.countP (fun ts => decide (u - (T : ℚ) < ts))) : ℤ) < L
    · have hflag : (check_memory (A.filter (fun ts => decide (t₀ - (T : ℚ) < ts)))
          u L T).1.allowed = true := by
        rw [hstep.1]
        exact decide_eq_true hallow
      have hsto : (check_memory (A.filter (fun ts => decide (t₀ - (T : ℚ) < ts)))
          u L T).2 = (A ++ [u]).filter (fun ts => decide (u - (T : ℚ) < ts)) := by
        rw [hstep.2, if_pos hallow]
      have hIH := ih (A ++ [u]) u hpw' hurest
      have hbnew : ∀ t : ℚ,
          ((A.countP (fun s => decide (t - (T : ℚ) < s) && decide (s ≤ t))) : ℤ) ≤ L →
          (((A ++ [u]).countP
            (fun s => decide (t - (T : ℚ) < s) && decide (s ≤ t))) : ℤ) ≤ L := by
        intro t hb
        rw [List.countP_append]
        by_cases hwu : (decide (t - (T : ℚ) < u) && decide (u ≤ t)) = true
        · have h1 : t - (T : ℚ) < u ∧ u ≤ t := by simpa using hwu
          have hmono2 : A.countP (fun s => decide (t - (T : ℚ) < s) && decide (s ≤ t))
              ≤ A.countP (fun ts => decide (u - (T : ℚ) < ts)) := by
            apply List.countP_mono_left
            intro a _ hpa
            have h2 : t - (T : ℚ) < a ∧ a ≤ t := by simpa using hpa
            have h3 : u - (T : ℚ) < a := by linarith [h1.2, h2.1]
            simpa using h3
          have hcu : List.countP
              (fun s => decide (t - (T : ℚ) < s) && decide (s ≤ t)) [u] = 1 := by
            simp [hwu]
          rw [hcu]
          have hm2 : ((A.countP (fun s => decide (t - (T : ℚ) < s) && decide (s ≤ t))) : ℤ)
              ≤ ((A.countP (fun ts => decide (u - (T : ℚ) < ts))) : ℤ) := by
            exact_mod_cast hmono2
          push_cast
          omega
        · have hcu : List.countP
              (fun s => decide (t - (T : ℚ) < s) && decide (s ≤ t)) [u] = 0 := by
            simp only [List.countP_cons, List.countP_nil]
            simp [hwu]
          rw [hcu]
          simpa using hb
      constructor
      · intro v hv hall
        simp only [runStore, admittedTimes]
        rw [hflag, if_pos rfl, hsto]
        have hIHv := hIH.1 v (hall u (List.mem_cons_self u rest))
          (fun w hw => hall w (List.mem_cons_of_mem u hw))
        rw [← List.append_cons] at hIHv
        exact hIHv
      · intro hbound t
        simp only [admittedTimes]
        rw [hflag, if_pos rfl, hsto]
        have hIH2 := hIH.2 (fun t2 => hbnew t2 (hbound t2)) t
        rw [← List.append_cons] at hIH2
        exact hIH2
    · have hflag : (check_memory (A.filter (fun ts => decide (t₀ - (T : ℚ) < ts)))
          u L T).1.allowed = false := by
        rw [hstep.1]
        exact decide_eq_false hallow
      have hsto : (check_memory (A.filter (fun ts => decide (t₀ - (T : ℚ) < ts)))
          u L T).2 = A.filter (fun ts => decide (u - (T : ℚ) < ts)) := by
        rw [hstep.2, if_neg hallow]
      have hIH := ih A u hpw' hurest
      constructor
      · intro v hv hall
        simp only [runStore, admittedTimes]
        rw [hflag, if_neg (by simp), hsto]
        exact hIH.1 v (hall u (List.mem_cons_self u rest))
          (fun w hw => hall w (List.mem_cons_of_mem u hw))
      · intro hbound t
        simp only [admittedTimes]
        rw [hflag, if_neg (by simp), hsto]
        exact hIH.2 hbound t

/-- C1: for limit L > 0 and period T > 0, a sequence of sequential
(nondecreasing-time) calls to the in-memory check operation admits at
most L requests whose timestamps fall within any trailing window
`(t - T, t]`; and a further call at time `u`, when L admitted requests
are still within `T` seconds of it, returns `allowed = false`. -/
theorem c1_sliding_window (L T : ℤ) (hL : 0 < L) (hT : 0 < T) (times : List ℚ)
    (hmono : times.Pairwise (· ≤ ·)) :
    (∀ t : ℚ, (((admittedTimes L T [] times).countP
        (fun s => decide (t - (T : ℚ) < s) && decide (s ≤ t))) : ℤ) ≤ L) ∧
    (∀ (pre : List ℚ) (u : ℚ) (post : List ℚ), times = pre ++ u :: post →
      L ≤ (((admittedTimes L T [] pre).countP
        (fun s => decide (u - (T : ℚ) < s))) : ℤ) →
      (check_memory (runStore L T [] pre) u L T).1.allowed = false) := by
  have hTq : (0 : ℚ) < (T : ℚ) := by exact_mod_cast hT
  constructor
  · cases times with
    | nil =>
      intro t
      simpa [admittedTimes] using hL.le
    | cons u rest =>
      have hle : ∀ w ∈ u :: rest, u ≤ w := by
        intro w hw
        rcases List.mem_cons.mp hw with h | h
        · exact h ▸ le_refl u
        · exact (List.pairwise_cons.mp hmono).1 w h
      have hm := run_master L T hTq (u :: rest) [] u hmono hle
      have hbase : ∀ t : ℚ, ((([] : List ℚ).countP
          (fun s => decide (t - (T : ℚ) < s) && decide (s ≤ t))) : ℤ) ≤ L := by
        intro t
        simpa using hL.le
      intro t
      have h2 := hm.2 hbase t
      simpa using h2
  · intro pre u post heq hcount
    subst heq
    have hsplit := List.pairwise_append.mp hmono
    have hpre : pre.Pairwise (· ≤ ·) := hsplit.1
    have hcross : ∀ a ∈ pre, a ≤ u :=
      fun a ha => hsplit.2.2 a ha u (List.mem_cons_self u post)
    cases pre with
    | nil =>
      exfalso
      simp [admittedTimes] at hcount
      omega
    | cons w pre2 =>
      have hwle : ∀ x ∈ w :: pre2, w ≤ x := by
        intro x hx
        rcases List.mem_cons.mp hx with h | h
        · exact h ▸ le_refl w
        · exact (List.pairwise_cons.mp hpre).1 x h
      have hm := run_master L T hTq (w :: pre2) [] w hpre hwle
      have hsf := hm.1 u (hcross w (List.mem_cons_self w pre2)) hcross
      simp only [List.filter_nil, List.nil_append] at hsf
      rw [check_memory_allowed, hsf, ← List.countP_eq_length_filter]
      apply decide_eq_false
      omega

/-- Witness for C1: with L = 1, T = 1, the call at time 1/2 after an
admitted call at time 0 is rejected. -/
theorem c1_witness :
    ((0 : ℤ) < 1) ∧ ([(0 : ℚ), 1/2].Pairwise (· ≤ ·)) ∧
    (check_memory (runStore 1 1 [] [0]) (1/2) 1 1).1.allowed = false := by
  refine ⟨by norm_num, by norm_num [List.pairwise_cons], ?_⟩
  refine (c1_sliding_window 1 1 (by norm_num) (by norm_num) [0, 1/2]
    (by norm_num [List.pairwise_cons])).2 [0] (1/2) [] rfl ?_
  simp [admittedTimes, check_memory, pyInt, pyMod]
  norm_num

end Gateway
